import Mathlib

/-!
Shallow embedding of `src/index.ts` (lz-stargate-demo): the Stargate `send()`
calldata codec (`decodeStargateCalldata` / `encodeStargateCalldata`, built on
viem's ABI coder for the fixed `send` signature), the per-route step
classifier, and the per-route transaction orchestration loop from `main`.

Byte strings are modelled as `List Nat` (one entry per byte); machine
integers are `Nat` with explicit `% 2 ^ w` where the wire format truncates.
The external Ledger Client (viem `sendTransaction` / `waitForTransactionReceipt`)
is modelled by a per-route oracle `RouteEnv` saying whether the approval and
the transfer submission (including its confirmation wait) succeed; the
requests handed to it are recorded as `TxRequest` values.  A `RunError`
result models an exception that escapes the per-route code and reaches the
outer `catch` in `main`, which reports it and exits with a non-zero code.
-/

deriving instance DecidableEq for Except

set_option maxRecDepth 40000
set_option maxHeartbeats 2000000

namespace StargateDemo

/-! ### ABI words and byte-level helpers -/

/-- Big-endian byte list of width `w` for `n % 256 ^ w`. -/
def beWordAux : Nat → Nat → List Nat
  | 0, _ => []
  | w + 1, n => beWordAux w (n / 256) ++ [n % 256]

/-- One 32-byte ABI slot holding `n % 2 ^ 256`, big-endian. -/
def beWord (n : Nat) : List Nat := beWordAux 32 n

/-- Interpret a byte list as a big-endian natural number. -/
def wordToNat (bs : List Nat) : Nat := bs.foldl (fun a b => a * 256 + b) 0

/-- Round `n` up to a multiple of 32 (ABI right-padding of dynamic bytes). -/
def pad32Len (n : Nat) : Nat := (n + 31) / 32 * 32

theorem beWordAux_length (w n : Nat) : (beWordAux w n).length = w := by
  induction w generalizing n with
  | zero => rfl
  | succ w ih => simp [beWordAux, ih]

theorem beWord_length (n : Nat) : (beWord n).length = 32 := beWordAux_length 32 n

theorem wordToNat_append_singleton (bs : List Nat) (b : Nat) :
    wordToNat (bs ++ [b]) = wordToNat bs * 256 + b := by
  simp [wordToNat, List.foldl_append]

theorem mod_pow_succ_decomp (n w : Nat) :
    n / 256 % 256 ^ w * 256 + n % 256 = n % 256 ^ (w + 1) := by
  have hq := Nat.div_add_mod n 256
  have hq2 := Nat.div_add_mod (n / 256) (256 ^ w)
  have hr : n % 256 < 256 := Nat.mod_lt _ (by norm_num)
  have hpow : 0 < (256 : Nat) ^ w := Nat.pos_pow_of_pos w (by norm_num)
  have hr2 : n / 256 % 256 ^ w < 256 ^ w := Nat.mod_lt _ hpow
  have key : n = 256 ^ (w + 1) * (n / 256 / 256 ^ w) +
      (n / 256 % 256 ^ w * 256 + n % 256) := by
    calc n = 256 * (n / 256) + n % 256 := hq.symm
      _ = 256 * (256 ^ w * (n / 256 / 256 ^ w) + n / 256 % 256 ^ w) + n % 256 := by
            rw [hq2]
      _ = 256 ^ (w + 1) * (n / 256 / 256 ^ w) +
            (n / 256 % 256 ^ w * 256 + n % 256) := by
            rw [pow_succ]; ring
  conv_rhs => rw [key]
  rw [Nat.mul_add_mod]
  have hlt : n / 256 % 256 ^ w * 256 + n % 256 < 256 ^ (w + 1) := by
    rw [pow_succ]
    omega
  exact (Nat.mod_eq_of_lt hlt).symm

theorem wordToNat_beWordAux (w n : Nat) : wordToNat (beWordAux w n) = n % 256 ^ w := by
  induction w generalizing n with
  | zero => simp [beWordAux, wordToNat, Nat.mod_one]
  | succ w ih =>
    rw [beWordAux, wordToNat_append_singleton, ih]
    exact mod_pow_succ_decomp n w

theorem pow256_32 : (256 : Nat) ^ 32 = 2 ^ 256 := by norm_num

theorem wordToNat_beWord (n : Nat) : wordToNat (beWord n) = n % 2 ^ 256 := by
  rw [beWord, wordToNat_beWordAux, pow256_32]

theorem wordToNat_beWord_of_lt {n : Nat} (h : n < 2 ^ 256) :
    wordToNat (beWord n) = n := by
  rw [wordToNat_beWord]; exact Nat.mod_eq_of_lt h

theorem wordToNat_lt_aux (bs : List Nat) (a : Nat) (h : ∀ b ∈ bs, b < 256) :
    bs.foldl (fun a b => a * 256 + b) a < (a + 1) * 256 ^ bs.length := by
  induction bs generalizing a with
  | nil => simp
  | cons b bs ih =>
    have hb : b < 256 := h b (by simp)
    have hrest : ∀ x ∈ bs, x < 256 := fun x hx => h x (by simp [hx])
    have h1 := ih (a * 256 + b) hrest
    have h2 : (a * 256 + b + 1) * 256 ^ bs.length ≤ (a + 1) * 256 ^ (bs.length + 1) := by
      rw [pow_succ]
      have : a * 256 + b + 1 ≤ (a + 1) * 256 := by omega
      calc (a * 256 + b + 1) * 256 ^ bs.length
          ≤ (a + 1) * 256 * 256 ^ bs.length := Nat.mul_le_mul_right _ this
        _ = (a + 1) * (256 ^ bs.length * 256) := by ring
    calc List.foldl (fun a b => a * 256 + b) (a * 256 + b) bs
        < (a * 256 + b + 1) * 256 ^ bs.length := h1
      _ ≤ (a + 1) * 256 ^ (bs.length + 1) := h2
      _ = (a + 1) * 256 ^ (b :: bs).length := by simp

theorem wordToNat_lt (bs : List Nat) (h : ∀ b ∈ bs, b < 256) :
    wordToNat bs < 256 ^ bs.length := by
  have := wordToNat_lt_aux bs 0 h
  simpa [wordToNat] using this

/-! ### Reading words and dynamic byte strings from calldata -/

/-- Failure modes of the calldata decoder, mirroring viem: an unknown leading
4-byte selector raises `AbiFunctionSignatureNotFoundError` (selector
mismatch), any out-of-bounds read while cursoring through the ABI data raises
a decoding error (malformed). -/
inductive DecodeError where
  | selectorMismatch
  | malformed
deriving DecidableEq, Repr

/-- Read one 32-byte ABI slot at byte offset `off`. -/
def readWord (d : List Nat) (off : Nat) : Except DecodeError Nat :=
  if off + 32 ≤ d.length then .ok (wordToNat ((d.drop off).take 32)) else .error .malformed

/-- Read a length-prefixed dynamic byte string whose length slot is at byte
offset `off`. -/
def readBytesDyn (d : List Nat) (off : Nat) : Except DecodeError (List Nat) :=
  match readWord d off with
  | .error e => .error e
  | .ok len =>
    if off + 32 + len ≤ d.length then .ok ((d.drop (off + 32)).take len)
    else .error .malformed

theorem readWord_head (w rest : List Nat) (hw : w.length = 32) :
    readWord (w ++ rest) 0 = .ok (wordToNat w) := by
  unfold readWord
  rw [if_pos (by simp [hw])]
  rw [List.drop_zero, List.take_left' hw]

theorem readWord_shift (w rest : List Nat) (n k : Nat) (hw : w.length = n) :
    readWord (w ++ rest) (n + k) = readWord rest k := by
  subst hw
  unfold readWord
  have hiff : w.length + k + 32 ≤ (w ++ rest).length ↔ k + 32 ≤ rest.length := by
    simp only [List.length_append]
    omega
  by_cases h : k + 32 ≤ rest.length
  · rw [if_pos (hiff.mpr h), if_pos h]
    have hdrop : (w ++ rest).drop (w.length + k) = rest.drop k := List.drop_append k
    rw [hdrop]
  · rw [if_neg (fun hc => h (hiff.mp hc)), if_neg h]

theorem readBytesDyn_shift (w rest : List Nat) (n k : Nat) (hw : w.length = n) :
    readBytesDyn (w ++ rest) (n + k) = readBytesDyn rest k := by
  subst hw
  unfold readBytesDyn
  rw [readWord_shift w rest _ k rfl]
  cases hrw : readWord rest k with
  | error e => rfl
  | ok len =>
    show (if w.length + k + 32 + len ≤ (w ++ rest).length
          then Except.ok (((w ++ rest).drop (w.length + k + 32)).take len)
          else Except.error DecodeError.malformed) =
        (if k + 32 + len ≤ rest.length
          then Except.ok ((rest.drop (k + 32)).take len)
          else Except.error DecodeError.malformed)
    have hiff : w.length + k + 32 + len ≤ (w ++ rest).length ↔
        k + 32 + len ≤ rest.length := by
      simp only [List.length_append]
      omega
    by_cases h : k + 32 + len ≤ rest.length
    · rw [if_pos (hiff.mpr h), if_pos h]
      have hdrop : (w ++ rest).drop (w.length + k + 32) = rest.drop (k + 32) := by
        have heq : w.length + k + 32 = w.length + (k + 32) := by omega
        rw [heq]
        exact List.drop_append (k + 32)
      rw [hdrop]
    · rw [if_neg (fun hc => h (hiff.mp hc)), if_neg h]

/-! ### The fixed call shapes -/

/-- The 4-byte discriminator of ERC-20 `approve(address,uint256)`, the string
`"0x095ea7b3"` compared at src/index.ts:305. -/
def approveSelector : List Nat := [0x09, 0x5e, 0xa7, 0xb3]

/-- The 4-byte discriminator of Stargate
`send((uint32,bytes32,uint256,uint256,bytes,bytes,bytes),(uint256,uint256),address)`,
the string `"0xc7c7f5b3"` compared at src/index.ts:307. -/
def sendSelector : List Nat := [0xc7, 0xc7, 0xf5, 0xb3]

/-- The `_sendParam` tuple of the Stargate `send()` ABI (src/index.ts:11-23).
The source's `to` field (a `bytes32`) is named `toAddr` here because `to` is
reserved in Lean. -/
structure SendParam where
  dstEid : Nat
  toAddr : Nat
  amountLD : Nat
  minAmountLD : Nat
  extraOptions : List Nat
  composeMsg : List Nat
  oftCmd : List Nat
deriving DecidableEq, Repr

/-- The `_fee` tuple of the Stargate `send()` ABI (src/index.ts:24-31). -/
structure Fee where
  nativeFee : Nat
  lzTokenFee : Nat
deriving DecidableEq, Repr

/-- The full argument triple of one `send()` call: what
`decodeStargateCalldata` returns (src/index.ts:160-175). -/
structure TransferCall where
  sendParam : SendParam
  fee : Fee
  refundAddress : Nat
deriving DecidableEq, Repr

/-! ### The encoder (src/index.ts:186-207, via viem `encodeFunctionData`)

ABI layout: after the 4-byte selector the head holds 4 slots — the offset of
the dynamic `_sendParam` tuple (always 128), the two inlined `_fee` words and
the address word — followed by the tuple content: 7 head slots (`dstEid`,
`to`, `amountLD`, `minAmountLD` and the three tuple-relative byte offsets)
and the three length-prefixed, zero-padded byte strings. -/

def encBytes (bs : List Nat) : List Nat :=
  beWord bs.length ++ (bs ++ List.replicate (pad32Len bs.length - bs.length) 0)

theorem pad32Len_ge (n : Nat) : n ≤ pad32Len n := by
  unfold pad32Len
  omega

theorem pad32Len_le (n : Nat) : pad32Len n ≤ n + 31 := by
  unfold pad32Len
  omega

theorem encBytes_length (bs : List Nat) :
    (encBytes bs).length = 32 + pad32Len bs.length := by
  have := pad32Len_ge bs.length
  simp [encBytes, beWord_length]
  omega

def encodeSendParamTuple (p : SendParam) : List Nat :=
  beWord p.dstEid ++ (beWord p.toAddr ++ (beWord p.amountLD ++ (beWord p.minAmountLD ++
    (beWord 224 ++ (beWord (256 + pad32Len p.extraOptions.length) ++
      (beWord (288 + pad32Len p.extraOptions.length + pad32Len p.composeMsg.length) ++
        (encBytes p.extraOptions ++ (encBytes p.composeMsg ++ encBytes p.oftCmd))))))))

/-- Encodes Stargate `send()` calldata from the argument triple
(src/index.ts:186-207). -/
def encodeStargateCalldata (p : SendParam) (f : Fee) (r : Nat) : List Nat :=
  sendSelector ++ (beWord 128 ++ (beWord f.nativeFee ++ (beWord f.lzTokenFee ++
    (beWord r ++ encodeSendParamTuple p))))

/-! ### The decoder (src/index.ts:153-181, via viem `decodeFunctionData`) -/

/-- Decode the ABI-encoded argument area (everything after the selector). -/
def decodeBody (d : List Nat) : Except DecodeError TransferCall :=
  match readWord d 0, readWord d 32, readWord d 64, readWord d 96 with
  | .ok tupOff, .ok nativeFee, .ok lzTokenFee, .ok refundWord =>
    match readWord d tupOff, readWord d (tupOff + 32), readWord d (tupOff + 64),
        readWord d (tupOff + 96), readWord d (tupOff + 128), readWord d (tupOff + 160),
        readWord d (tupOff + 192) with
    | .ok dstEid, .ok toWord, .ok amountLD, .ok minAmountLD,
      .ok offE, .ok offC, .ok offO =>
      match readBytesDyn d (tupOff + offE), readBytesDyn d (tupOff + offC),
          readBytesDyn d (tupOff + offO) with
      | .ok extra, .ok compose, .ok oft =>
        .ok ⟨⟨dstEid, toWord, amountLD, minAmountLD, extra, compose, oft⟩,
          ⟨nativeFee, lzTokenFee⟩, refundWord % 2 ^ 160⟩
      | _, _, _ => .error .malformed
    | _, _, _, _, _, _, _ => .error .malformed
  | _, _, _, _ => .error .malformed

/-- Decodes Stargate `send()` calldata (src/index.ts:153-181).  As in viem,
the leading 4-byte discriminator is checked first: an unknown selector is
rejected outright; only then is the argument area parsed.  The address word
keeps only its low 20 bytes, as viem's address decoder does. -/
def decodeStargateCalldata (cd : List Nat) : Except DecodeError TransferCall :=
  if cd.take 4 = sendSelector then decodeBody (cd.drop 4)
  else .error .selectorMismatch

/-! ### Round trip: decoding a canonical encoding recovers the triple -/

theorem readWord_peel32 (w rest : List Nat) (k m : Nat) (hw : w.length = 32)
    (hm : m = 32 + k) : readWord (w ++ rest) m = readWord rest k := by
  subst hm; exact readWord_shift w rest 32 k hw

theorem readWord_peelN (w rest : List Nat) (n k m : Nat) (hw : w.length = n)
    (hm : m = n + k) : readWord (w ++ rest) m = readWord rest k := by
  subst hm; exact readWord_shift w rest n k hw

theorem readBytesDyn_peel32 (w rest : List Nat) (k m : Nat) (hw : w.length = 32)
    (hm : m = 32 + k) : readBytesDyn (w ++ rest) m = readBytesDyn rest k := by
  subst hm; exact readBytesDyn_shift w rest 32 k hw

theorem readBytesDyn_peelN (w rest : List Nat) (n k m : Nat) (hw : w.length = n)
    (hm : m = n + k) : readBytesDyn (w ++ rest) m = readBytesDyn rest k := by
  subst hm; exact readBytesDyn_shift w rest n k hw

theorem readWord_skip128 (a b c d rest : List Nat) (k : Nat)
    (ha : a.length = 32) (hb : b.length = 32) (hc : c.length = 32) (hd : d.length = 32) :
    readWord (a ++ (b ++ (c ++ (d ++ rest)))) (128 + k) = readWord rest k := by
  rw [readWord_peel32 a _ (96 + k) _ ha (by omega)]
  rw [readWord_peel32 b _ (64 + k) _ hb (by omega)]
  rw [readWord_peel32 c _ (32 + k) _ hc (by omega)]
  rw [readWord_peel32 d _ k _ hd (by omega)]

theorem readBytesDyn_skip128 (a b c d rest : List Nat) (k : Nat)
    (ha : a.length = 32) (hb : b.length = 32) (hc : c.length = 32) (hd : d.length = 32) :
    readBytesDyn (a ++ (b ++ (c ++ (d ++ rest)))) (128 + k) = readBytesDyn rest k := by
  rw [readBytesDyn_peel32 a _ (96 + k) _ ha (by omega)]
  rw [readBytesDyn_peel32 b _ (64 + k) _ hb (by omega)]
  rw [readBytesDyn_peel32 c _ (32 + k) _ hc (by omega)]
  rw [readBytesDyn_peel32 d _ k _ hd (by omega)]

theorem readBytesDyn_encBytes_head (bs rest : List Nat) (h : bs.length < 2 ^ 256) :
    readBytesDyn (encBytes bs ++ rest) 0 = .ok bs := by
  have hassoc : encBytes bs ++ rest = beWord bs.length ++
      (bs ++ (List.replicate (pad32Len bs.length - bs.length) 0 ++ rest)) := by
    simp [encBytes, List.append_assoc]
  rw [hassoc]
  unfold readBytesDyn
  rw [readWord_head _ _ (beWord_length _), wordToNat_beWord_of_lt h]
  show (if 0 + 32 + bs.length ≤ (beWord bs.length ++
        (bs ++ (List.replicate (pad32Len bs.length - bs.length) 0 ++ rest))).length
      then Except.ok (((beWord bs.length ++
        (bs ++ (List.replicate (pad32Len bs.length - bs.length) 0 ++ rest))).drop
          (0 + 32)).take bs.length)
      else Except.error DecodeError.malformed) = Except.ok bs
  simp only [Nat.zero_add]
  have hcond : 32 + bs.length ≤ (beWord bs.length ++
      (bs ++ (List.replicate (pad32Len bs.length - bs.length) 0 ++ rest))).length := by
    simp only [List.length_append, beWord_length, List.length_replicate]
    omega
  rw [if_pos hcond, List.drop_left' (beWord_length bs.length), List.take_left]

theorem readBytesDyn_encBytes_last (bs : List Nat) (h : bs.length < 2 ^ 256) :
    readBytesDyn (encBytes bs) 0 = .ok bs := by
  have := readBytesDyn_encBytes_head bs [] h
  rwa [List.append_nil] at this

theorem tuple_read_dstEid (p : SendParam) (h : p.dstEid < 2 ^ 256) :
    readWord (encodeSendParamTuple p) 0 = .ok p.dstEid := by
  unfold encodeSendParamTuple
  rw [readWord_head _ _ (beWord_length _), wordToNat_beWord_of_lt h]

theorem tuple_read_toAddr (p : SendParam) (h : p.toAddr < 2 ^ 256) :
    readWord (encodeSendParamTuple p) 32 = .ok p.toAddr := by
  unfold encodeSendParamTuple
  rw [readWord_peel32 _ _ 0 _ (beWord_length _) (by norm_num)]
  rw [readWord_head _ _ (beWord_length _), wordToNat_beWord_of_lt h]

theorem tuple_read_amountLD (p : SendParam) (h : p.amountLD < 2 ^ 256) :
    readWord (encodeSendParamTuple p) 64 = .ok p.amountLD := by
  unfold encodeSendParamTuple
  rw [readWord_peel32 _ _ 32 _ (beWord_length _) (by norm_num)]
  rw [readWord_peel32 _ _ 0 _ (beWord_length _) (by norm_num)]
  rw [readWord_head _ _ (beWord_length _), wordToNat_beWord_of_lt h]

theorem tuple_read_minAmountLD (p : SendParam) (h : p.minAmountLD < 2 ^ 256) :
    readWord (encodeSendParamTuple p) 96 = .ok p.minAmountLD := by
  unfold encodeSendParamTuple
  rw [readWord_peel32 _ _ 64 _ (beWord_length _) (by norm_num)]
  rw [readWord_peel32 _ _ 32 _ (beWord_length _) (by norm_num)]
  rw [readWord_peel32 _ _ 0 _ (beWord_length _) (by norm_num)]
  rw [readWord_head _ _ (beWord_length _), wordToNat_beWord_of_lt h]

theorem tuple_read_offE (p : SendParam) :
    readWord (encodeSendParamTuple p) 128 = .ok 224 := by
  unfold encodeSendParamTuple
  rw [readWord_peel32 _ _ 96 _ (beWord_length _) (by norm_num)]
  rw [readWord_peel32 _ _ 64 _ (beWord_length _) (by norm_num)]
  rw [readWord_peel32 _ _ 32 _ (beWord_length _) (by norm_num)]
  rw [readWord_peel32 _ _ 0 _ (beWord_length _) (by norm_num)]
  rw [readWord_head _ _ (beWord_length _), wordToNat_beWord_of_lt (by norm_num)]

theorem tuple_read_offC (p : SendParam) (h : p.extraOptions.length < 2 ^ 64) :
    readWord (encodeSendParamTuple p) 160 =
      .ok (256 + pad32Len p.extraOptions.length) := by
  have hbound : 256 + pad32Len p.extraOptions.length < 2 ^ 256 := by
    have h1 := pad32Len_le p.extraOptions.length
    have h2 : (2 : Nat) ^ 64 < 2 ^ 256 := by norm_num
    omega
  unfold encodeSendParamTuple
  rw [readWord_peel32 _ _ 128 _ (beWord_length _) (by norm_num)]
  rw [readWord_peel32 _ _ 96 _ (beWord_length _) (by norm_num)]
  rw [readWord_peel32 _ _ 64 _ (beWord_length _) (by norm_num)]
  rw [readWord_peel32 _ _ 32 _ (beWord_length _) (by norm_num)]
  rw [readWord_peel32 _ _ 0 _ (beWord_length _) (by norm_num)]
  rw [readWord_head _ _ (beWord_length _), wordToNat_beWord_of_lt hbound]

theorem tuple_read_offO (p : SendParam) (hE : p.extraOptions.length < 2 ^ 64)
    (hC : p.composeMsg.length < 2 ^ 64) :
    readWord (encodeSendParamTuple p) 192 =
      .ok (288 + pad32Len p.extraOptions.length + pad32Len p.composeMsg.length) := by
  have hbound : 288 + pad32Len p.extraOptions.length + pad32Len p.composeMsg.length
      < 2 ^ 256 := by
    have h1 := pad32Len_le p.extraOptions.length
    have h2 := pad32Len_le p.composeMsg.length
    have h3 : (2 : Nat) ^ 64 < 2 ^ 256 := by norm_num
    have h4 : (2 : Nat) ^ 64 + 2 ^ 64 < 2 ^ 256 := by norm_num
    omega
  unfold encodeSendParamTuple
  rw [readWord_peel32 _ _ 160 _ (beWord_length _) (by norm_num)]
  rw [readWord_peel32 _ _ 128 _ (beWord_length _) (by norm_num)]
  rw [readWord_peel32 _ _ 96 _ (beWord_length _) (by norm_num)]
  rw [readWord_peel32 _ _ 64 _ (beWord_length _) (by norm_num)]
  rw [readWord_peel32 _ _ 32 _ (beWord_length _) (by norm_num)]
  rw [readWord_peel32 _ _ 0 _ (beWord_length _) (by norm_num)]
  rw [readWord_head _ _ (beWord_length _), wordToNat_beWord_of_lt hbound]

theorem tuple_bytes_extra (p : SendParam) (h : p.extraOptions.length < 2 ^ 256) :
    readBytesDyn (encodeSendParamTuple p) 224 = .ok p.extraOptions := by
  unfold encodeSendParamTuple
  rw [readBytesDyn_peel32 _ _ 192 _ (beWord_length _) (by norm_num)]
  rw [readBytesDyn_peel32 _ _ 160 _ (beWord_length _) (by norm_num)]
  rw [readBytesDyn_peel32 _ _ 128 _ (beWord_length _) (by norm_num)]
  rw [readBytesDyn_peel32 _ _ 96 _ (beWord_length _) (by norm_num)]
  rw [readBytesDyn_peel32 _ _ 64 _ (beWord_length _) (by norm_num)]
  rw [readBytesDyn_peel32 _ _ 32 _ (beWord_length _) (by norm_num)]
  rw [readBytesDyn_peel32 _ _ 0 _ (beWord_length _) (by norm_num)]
  exact readBytesDyn_encBytes_head _ _ h

theorem tuple_bytes_compose (p : SendParam)
    (hE : p.extraOptions.length < 2 ^ 64) (hC : p.composeMsg.length < 2 ^ 256) :
    readBytesDyn (encodeSendParamTuple p) (256 + pad32Len p.extraOptions.length) =
      .ok p.composeMsg := by
  unfold encodeSendParamTuple
  rw [readBytesDyn_peel32 _ _ (224 + pad32Len p.extraOptions.length) _
    (beWord_length _) (by omega)]
  rw [readBytesDyn_peel32 _ _ (192 + pad32Len p.extraOptions.length) _
    (beWord_length _) (by omega)]
  rw [readBytesDyn_peel32 _ _ (160 + pad32Len p.extraOptions.length) _
    (beWord_length _) (by omega)]
  rw [readBytesDyn_peel32 _ _ (128 + pad32Len p.extraOptions.length) _
    (beWord_length _) (by omega)]
  rw [readBytesDyn_peel32 _ _ (96 + pad32Len p.extraOptions.length) _
    (beWord_length _) (by omega)]
  rw [readBytesDyn_peel32 _ _ (64 + pad32Len p.extraOptions.length) _
    (beWord_length _) (by omega)]
  rw [readBytesDyn_peel32 _ _ (32 + pad32Len p.extraOptions.length) _
    (beWord_length _) (by omega)]
  rw [readBytesDyn_peelN (encBytes p.extraOptions) _
    (32 + pad32Len p.extraOptions.length) 0 _ (encBytes_length _) (by omega)]
  exact readBytesDyn_encBytes_head _ _ hC

theorem tuple_bytes_oft (p : SendParam)
    (hE : p.extraOptions.length < 2 ^ 64) (hC : p.composeMsg.length < 2 ^ 64)
    (hO : p.oftCmd.length < 2 ^ 256) :
    readBytesDyn (encodeSendParamTuple p)
        (288 + pad32Len p.extraOptions.length + pad32Len p.composeMsg.length) =
      .ok p.oftCmd := by
  unfold encodeSendParamTuple
  rw [readBytesDyn_peel32 _ _
    (256 + pad32Len p.extraOptions.length + pad32Len p.composeMsg.length) _
    (beWord_length _) (by omega)]
  rw [readBytesDyn_peel32 _ _
    (224 + pad32Len p.extraOptions.length + pad32Len p.composeMsg.length) _
    (beWord_length _) (by omega)]
  rw [readBytesDyn_peel32 _ _
    (192 + pad32Len p.extraOptions.length + pad32Len p.composeMsg.length) _
    (beWord_length _) (by omega)]
  rw [readBytesDyn_peel32 _ _
    (160 + pad32Len p.extraOptions.length + pad32Len p.composeMsg.length) _
    (beWord_length _) (by omega)]
  rw [readBytesDyn_peel32 _ _
    (128 + pad32Len p.extraOptions.length + pad32Len p.composeMsg.length) _
    (beWord_length _) (by omega)]
  rw [readBytesDyn_peel32 _ _
    (96 + pad32Len p.extraOptions.length + pad32Len p.composeMsg.length) _
    (beWord_length _) (by omega)]
  rw [readBytesDyn_peel32 _ _
    (64 + pad32Len p.extraOptions.length + pad32Len p.composeMsg.length) _
    (beWord_length _) (by omega)]
  rw [readBytesDyn_peelN (encBytes p.extraOptions) _
    (32 + pad32Len p.extraOptions.length) (32 + pad32Len p.composeMsg.length) _
    (encBytes_length _) (by omega)]
  rw [readBytesDyn_peelN (encBytes p.composeMsg) _
    (32 + pad32Len p.composeMsg.length) 0 _ (encBytes_length _) (by omega)]
  exact readBytesDyn_encBytes_last _ hO

theorem decodeBody_encode (p : SendParam) (f : Fee) (r : Nat)
    (h1 : p.dstEid < 2 ^ 256) (h2 : p.toAddr < 2 ^ 256) (h3 : p.amountLD < 2 ^ 256)
    (h4 : p.minAmountLD < 2 ^ 256) (h5 : p.extraOptions.length < 2 ^ 64)
    (h6 : p.composeMsg.length < 2 ^ 64) (h7 : p.oftCmd.length < 2 ^ 64)
    (h8 : f.nativeFee < 2 ^ 256) (h9 : f.lzTokenFee < 2 ^ 256) :
    decodeBody (beWord 128 ++ (beWord f.nativeFee ++ (beWord f.lzTokenFee ++
        (beWord r ++ encodeSendParamTuple p)))) = .ok ⟨p, f, r % 2 ^ 160⟩ := by
  have hE : p.extraOptions.length < 2 ^ 256 := lt_trans h5 (by norm_num)
  have hC : p.composeMsg.length < 2 ^ 256 := lt_trans h6 (by norm_num)
  have hO : p.oftCmd.length < 2 ^ 256 := lt_trans h7 (by norm_num)
  have bw : ∀ n : Nat, (beWord n).length = 32 := beWord_length
  have e0 : readWord (beWord 128 ++ (beWord f.nativeFee ++ (beWord f.lzTokenFee ++
      (beWord r ++ encodeSendParamTuple p)))) 0 = .ok 128 := by
    rw [readWord_head _ _ (bw _), wordToNat_beWord_of_lt (by norm_num)]
  have e1 : readWord (beWord 128 ++ (beWord f.nativeFee ++ (beWord f.lzTokenFee ++
      (beWord r ++ encodeSendParamTuple p)))) 32 = .ok f.nativeFee := by
    rw [readWord_peel32 _ _ 0 _ (bw _) (by norm_num)]
    rw [readWord_head _ _ (bw _), wordToNat_beWord_of_lt h8]
  have e2 : readWord (beWord 128 ++ (beWord f.nativeFee ++ (beWord f.lzTokenFee ++
      (beWord r ++ encodeSendParamTuple p)))) 64 = .ok f.lzTokenFee := by
    rw [readWord_peel32 _ _ 32 _ (bw _) (by norm_num)]
    rw [readWord_peel32 _ _ 0 _ (bw _) (by norm_num)]
    rw [readWord_head _ _ (bw _), wordToNat_beWord_of_lt h9]
  have e3 : readWord (beWord 128 ++ (beWord f.nativeFee ++ (beWord f.lzTokenFee ++
      (beWord r ++ encodeSendParamTuple p)))) 96 = .ok (r % 2 ^ 256) := by
    rw [readWord_peel32 _ _ 64 _ (bw _) (by norm_num)]
    rw [readWord_peel32 _ _ 32 _ (bw _) (by norm_num)]
    rw [readWord_peel32 _ _ 0 _ (bw _) (by norm_num)]
    rw [readWord_head _ _ (bw _), wordToNat_beWord]
  have e4 : readWord (beWord 128 ++ (beWord f.nativeFee ++ (beWord f.lzTokenFee ++
      (beWord r ++ encodeSendParamTuple p)))) 128 = .ok p.dstEid :=
    (readWord_skip128 _ _ _ _ _ 0 (bw _) (bw _) (bw _) (bw _)).trans
      (tuple_read_dstEid p h1)
  have e5 : readWord (beWord 128 ++ (beWord f.nativeFee ++ (beWord f.lzTokenFee ++
      (beWord r ++ encodeSendParamTuple p)))) 160 = .ok p.toAddr :=
    (readWord_skip128 _ _ _ _ _ 32 (bw _) (bw _) (bw _) (bw _)).trans
      (tuple_read_toAddr p h2)
  have e6 : readWord (beWord 128 ++ (beWord f.nativeFee ++ (beWord f.lzTokenFee ++
      (beWord r ++ encodeSendParamTuple p)))) 192 = .ok p.amountLD :=
    (readWord_skip128 _ _ _ _ _ 64 (bw _) (bw _) (bw _) (bw _)).trans
      (tuple_read_amountLD p h3)
  have e7 : readWord (beWord 128 ++ (beWord f.nativeFee ++ (beWord f.lzTokenFee ++
      (beWord r ++ encodeSendParamTuple p)))) 224 = .ok p.minAmountLD :=
    (readWord_skip128 _ _ _ _ _ 96 (bw _) (bw _) (bw _) (bw _)).trans
      (tuple_read_minAmountLD p h4)
  have e8 : readWord (beWord 128 ++ (beWord f.nativeFee ++ (beWord f.lzTokenFee ++
      (beWord r ++ encodeSendParamTuple p)))) 256 = .ok 224 :=
    (readWord_skip128 _ _ _ _ _ 128 (bw _) (bw _) (bw _) (bw _)).trans
      (tuple_read_offE p)
  have e9 : readWord (beWord 128 ++ (beWord f.nativeFee ++ (beWord f.lzTokenFee ++
      (beWord r ++ encodeSendParamTuple p)))) 288 =
      .ok (256 + pad32Len p.extraOptions.length) :=
    (readWord_skip128 _ _ _ _ _ 160 (bw _) (bw _) (bw _) (bw _)).trans
      (tuple_read_offC p h5)
  have e10 : readWord (beWord 128 ++ (beWord f.nativeFee ++ (beWord f.lzTokenFee ++
      (beWord r ++ encodeSendParamTuple p)))) 320 =
      .ok (288 + pad32Len p.extraOptions.length + pad32Len p.composeMsg.length) :=
    (readWord_skip128 _ _ _ _ _ 192 (bw _) (bw _) (bw _) (bw _)).trans
      (tuple_read_offO p h5 h6)
  have e11 : readBytesDyn (beWord 128 ++ (beWord f.nativeFee ++ (beWord f.lzTokenFee ++
      (beWord r ++ encodeSendParamTuple p)))) 352 = .ok p.extraOptions :=
    (readBytesDyn_skip128 _ _ _ _ _ 224 (bw _) (bw _) (bw _) (bw _)).trans
      (tuple_bytes_extra p hE)
  have e12 : readBytesDyn (beWord 128 ++ (beWord f.nativeFee ++ (beWord f.lzTokenFee ++
      (beWord r ++ encodeSendParamTuple p))))
      (128 + (256 + pad32Len p.extraOptions.length)) = .ok p.composeMsg :=
    (readBytesDyn_skip128 _ _ _ _ _ (256 + pad32Len p.extraOptions.length)
      (bw _) (bw _) (bw _) (bw _)).trans (tuple_bytes_compose p h5 hC)
  have e13 : readBytesDyn (beWord 128 ++ (beWord f.nativeFee ++ (beWord f.lzTokenFee ++
      (beWord r ++ encodeSendParamTuple p))))
      (128 + (288 + pad32Len p.extraOptions.length + pad32Len p.composeMsg.length)) =
      .ok p.oftCmd :=
    (readBytesDyn_skip128 _ _ _ _ _
      (288 + pad32Len p.extraOptions.length + pad32Len p.composeMsg.length)
      (bw _) (bw _) (bw _) (bw _)).trans (tuple_bytes_oft p h5 h6 hO)
  simp only [decodeBody, e0, e1, e2, e3, e4, e5, e6, e7, e8, e9, e10, e11, e12, e13]
  rw [Nat.mod_mod_of_dvd r ⟨2 ^ 96, by norm_num⟩]

/-- Core round-trip fact for the codec: decoding a canonical encoding
recovers the argument triple (the refund address word keeps its low 160
bits). -/
theorem decode_encode (p : SendParam) (f : Fee) (r : Nat)
    (h1 : p.dstEid < 2 ^ 256) (h2 : p.toAddr < 2 ^ 256) (h3 : p.amountLD < 2 ^ 256)
    (h4 : p.minAmountLD < 2 ^ 256) (h5 : p.extraOptions.length < 2 ^ 64)
    (h6 : p.composeMsg.length < 2 ^ 64) (h7 : p.oftCmd.length < 2 ^ 64)
    (h8 : f.nativeFee < 2 ^ 256) (h9 : f.lzTokenFee < 2 ^ 256) (hr : r < 2 ^ 160) :
    decodeStargateCalldata (encodeStargateCalldata p f r) = .ok ⟨p, f, r⟩ := by
  unfold decodeStargateCalldata
  have hsel : (encodeStargateCalldata p f r).take 4 = sendSelector := by
    unfold encodeStargateCalldata
    exact List.take_left' rfl
  rw [if_pos hsel]
  have hdropEq : (encodeStargateCalldata p f r).drop 4 =
      beWord 128 ++ (beWord f.nativeFee ++ (beWord f.lzTokenFee ++
        (beWord r ++ encodeSendParamTuple p))) := by
    unfold encodeStargateCalldata
    exact List.drop_left' rfl
  rw [hdropEq, decodeBody_encode p f r h1 h2 h3 h4 h5 h6 h7 h8 h9,
    Nat.mod_eq_of_lt hr]

/-! ### Well-formed transfer calls -/

/-- A genuine byte string: entries are bytes, and the length is far below any
ABI offset overflow (hex calldata in the source is a JavaScript string, so
its byte length is always below `2 ^ 64`). -/
def ValidBytes (bs : List Nat) : Prop := bs.length < 2 ^ 64 ∧ ∀ b ∈ bs, b < 256

instance (bs : List Nat) : Decidable (ValidBytes bs) := by
  unfold ValidBytes; infer_instance

/-- Well-formedness of a `_sendParam` tuple: every integer fits its declared
ABI width and the three dynamic fields are genuine byte strings. -/
def SendParam.WF (p : SendParam) : Prop :=
  p.dstEid < 2 ^ 32 ∧ p.toAddr < 2 ^ 256 ∧ p.amountLD < 2 ^ 256 ∧
    p.minAmountLD < 2 ^ 256 ∧ ValidBytes p.extraOptions ∧
    ValidBytes p.composeMsg ∧ ValidBytes p.oftCmd

instance (p : SendParam) : Decidable p.WF := by
  unfold SendParam.WF; infer_instance

/-- Well-formedness of a `_fee` tuple: both fees fit in 256 bits. -/
def Fee.WF (f : Fee) : Prop := f.nativeFee < 2 ^ 256 ∧ f.lzTokenFee < 2 ^ 256

instance (f : Fee) : Decidable f.WF := by
  unfold Fee.WF; infer_instance

/-- Well-formedness of a full transfer call: tuple fields well-formed and the
refund address fits in 160 bits. -/
def TransferCall.WF (t : TransferCall) : Prop :=
  t.sendParam.WF ∧ t.fee.WF ∧ t.refundAddress < 2 ^ 160

instance (t : TransferCall) : Decidable t.WF := by
  unfold TransferCall.WF; infer_instance

/-- C1: for every well-formed TransferCall triple — including triples with
zero-length extraOptions/composeMsg/oftCmd byte fields and maximum 256-bit
integer values — decoding the result of encoding the triple reproduces the
same triple, field for field (`decode(encode(x)) == x`). -/
theorem roundTrip_wellFormed (t : TransferCall) (h : t.WF) :
    decodeStargateCalldata
        (encodeStargateCalldata t.sendParam t.fee t.refundAddress) = .ok t := by
  obtain ⟨⟨hEid, hTo, hA, hM, ⟨hE, _⟩, ⟨hC, _⟩, ⟨hO, _⟩⟩, ⟨hNf, hLz⟩, hR⟩ := h
  exact decode_encode t.sendParam t.fee t.refundAddress
    (lt_trans hEid (by norm_num)) hTo hA hM hE hC hO hNf hLz hR

/-- A concrete transfer call with maximum 256-bit integer values and
zero-length dynamic byte fields. -/
def maxTransferCall : TransferCall :=
  ⟨⟨2 ^ 32 - 1, 2 ^ 256 - 1, 2 ^ 256 - 1, 2 ^ 256 - 1, [], [], []⟩,
    ⟨2 ^ 256 - 1, 2 ^ 256 - 1⟩, 2 ^ 160 - 1⟩

/-- Witness for C1 at a concrete triple with maximum 256-bit integers and
zero-length dynamic byte fields. -/
theorem roundTrip_wellFormed_witness :
    maxTransferCall.WF ∧
    decodeStargateCalldata (encodeStargateCalldata maxTransferCall.sendParam
        maxTransferCall.fee maxTransferCall.refundAddress) = .ok maxTransferCall :=
  ⟨by decide, roundTrip_wellFormed maxTransferCall (by decide)⟩

/-- C9: for every input byte string whose first 4 bytes do not equal the
fixed transfer-call discriminator, decode fails with the distinct error kind
SelectorMismatch and never returns a (mis)parsed TransferCall. -/
theorem decode_selectorMismatch (cd : List Nat) (h : cd.take 4 ≠ sendSelector) :
    decodeStargateCalldata cd = .error .selectorMismatch := by
  unfold decodeStargateCalldata
  rw [if_neg h]

/-- Witness for C9 at a concrete input carrying the approve discriminator. -/
theorem decode_selectorMismatch_witness :
    (approveSelector ++ List.replicate 64 0).take 4 ≠ sendSelector ∧
    decodeStargateCalldata (approveSelector ++ List.replicate 64 0) =
      .error .selectorMismatch :=
  ⟨by decide, decode_selectorMismatch _ (by decide)⟩

/-! ### Bounds on decoded values -/

theorem readWord_lt_bound (d : List Nat) (off n : Nat) (hb : ∀ b ∈ d, b < 256)
    (h : readWord d off = .ok n) : n < 2 ^ 256 := by
  unfold readWord at h
  split at h
  · cases h
    have hsub : ∀ b ∈ (d.drop off).take 32, b < 256 := fun b hbm =>
      hb b (List.drop_subset off d (List.take_subset 32 _ hbm))
    have hlt := wordToNat_lt _ hsub
    have hlen : ((d.drop off).take 32).length ≤ 32 := by
      simp [List.length_take]
    calc wordToNat ((d.drop off).take 32)
        < 256 ^ ((d.drop off).take 32).length := hlt
      _ ≤ 256 ^ 32 := Nat.pow_le_pow_right (by norm_num) hlen
      _ = 2 ^ 256 := pow256_32
  · exact (Except.noConfusion h)

theorem readBytesDyn_length_le (d : List Nat) (off : Nat) (bs : List Nat)
    (h : readBytesDyn d off = .ok bs) : bs.length ≤ d.length := by
  unfold readBytesDyn at h
  split at h
  · exact (Except.noConfusion h)
  · split at h
    · cases h
      simp only [List.length_take, List.length_drop]
      omega
    · exact (Except.noConfusion h)

theorem decodeBody_wf (d : List Nat) (t : TransferCall)
    (hb : ∀ b ∈ d, b < 256) (hlen : d.length < 2 ^ 64)
    (h : decodeBody d = .ok t) :
    t.sendParam.dstEid < 2 ^ 256 ∧ t.sendParam.toAddr < 2 ^ 256 ∧
    t.sendParam.amountLD < 2 ^ 256 ∧ t.sendParam.minAmountLD < 2 ^ 256 ∧
    t.sendParam.extraOptions.length < 2 ^ 64 ∧
    t.sendParam.composeMsg.length < 2 ^ 64 ∧
    t.sendParam.oftCmd.length < 2 ^ 64 ∧ t.fee.nativeFee < 2 ^ 256 ∧
    t.fee.lzTokenFee < 2 ^ 256 ∧ t.refundAddress < 2 ^ 160 := by
  unfold decodeBody at h
  split at h <;> try exact (Except.noConfusion h)
  split at h <;> try exact (Except.noConfusion h)
  split at h <;> try exact (Except.noConfusion h)
  cases h
  refine ⟨?_, ?_, ?_, ?_, ?_, ?_, ?_, ?_, ?_, ?_⟩ <;>
    first
      | (apply readWord_lt_bound d _ _ hb; assumption)
      | (apply lt_of_le_of_lt _ hlen; apply readBytesDyn_length_le d; assumption)
      | exact Nat.mod_lt _ (by norm_num)

theorem decode_wf (cd : List Nat) (t : TransferCall) (hb : ∀ b ∈ cd, b < 256)
    (hlen : cd.length < 2 ^ 64) (h : decodeStargateCalldata cd = .ok t) :
    t.sendParam.dstEid < 2 ^ 256 ∧ t.sendParam.toAddr < 2 ^ 256 ∧
    t.sendParam.amountLD < 2 ^ 256 ∧ t.sendParam.minAmountLD < 2 ^ 256 ∧
    t.sendParam.extraOptions.length < 2 ^ 64 ∧
    t.sendParam.composeMsg.length < 2 ^ 64 ∧
    t.sendParam.oftCmd.length < 2 ^ 64 ∧ t.fee.nativeFee < 2 ^ 256 ∧
    t.fee.lzTokenFee < 2 ^ 256 ∧ t.refundAddress < 2 ^ 160 := by
  unfold decodeStargateCalldata at h
  split at h
  · have hb' : ∀ b ∈ cd.drop 4, b < 256 := fun b hbm =>
      hb b (List.drop_subset 4 cd hbm)
    have hlen' : (cd.drop 4).length < 2 ^ 64 := by
      simp only [List.length_drop]
      omega
    exact decodeBody_wf _ t hb' hlen' h
  · exact (Except.noConfusion h)

/-- If calldata of genuine bytes decodes, then re-encoding its decoded tuple
fields with any 160-bit refund address decodes back to exactly those tuple
fields with that refund address. -/
theorem decode_then_reencode (cd : List Nat) (t : TransferCall) (ov : Nat)
    (hb : ∀ b ∈ cd, b < 256) (hlen : cd.length < 2 ^ 64) (hov : ov < 2 ^ 160)
    (h : decodeStargateCalldata cd = .ok t) :
    decodeStargateCalldata (encodeStargateCalldata t.sendParam t.fee ov) =
      .ok ⟨t.sendParam, t.fee, ov⟩ := by
  obtain ⟨w1, w2, w3, w4, w5, w6, w7, w8, w9, _⟩ := decode_wf cd t hb hlen h
  exact decode_encode t.sendParam t.fee ov w1 w2 w3 w4 w5 w6 w7 w8 w9 hov

/-! ### Routes and steps (the `StargateQuote` data model, src/index.ts:64-96)

The transaction skeleton's `data` field is `Option (List Nat)`: `none` models
an absent or empty (falsy) `data` string, skipped by the classifier's
`if (txData)` guard; `some bytes` models a hex calldata string.  `value` is
kept as a number (the source stores it as a decimal string and parses it
with `BigInt` at src/index.ts:393). -/

structure Transaction where
  data : Option (List Nat)
  toAddr : String
  value : Nat
  fromAddr : String
deriving DecidableEq, Repr

structure Step where
  type : String
  sender : String
  chainKey : String
  transaction : Transaction
deriving DecidableEq, Repr

structure Route where
  route : String
  steps : List Step
deriving DecidableEq, Repr

/-! ### Step classifier (src/index.ts:296-312)

The loop keeps three mutable slots (`approvalStep`, `sendStep`,
`sendStepIndex`, the last initialised to `-1`) and assigns them on every
selector match — there is no first-match guard in the source, so a later
matching step overwrites an earlier one. -/

structure ClassifyResult where
  approvalStep : Option Step
  sendStep : Option Step
  sendStepIndex : Int
deriving DecidableEq, Repr

/-- One iteration of the classification loop at src/index.ts:299-312. -/
def classifyFold (acc : ClassifyResult) (i : Nat) (step : Step) : ClassifyResult :=
  match step.transaction.data with
  | none => acc
  | some txData =>
    if txData.take 4 = approveSelector then
      { acc with approvalStep := some step }
    else if txData.take 4 = sendSelector then
      { acc with sendStep := some step, sendStepIndex := (i : Int) }
    else acc

def classifyGo : Nat → ClassifyResult → List Step → ClassifyResult
  | _, acc, [] => acc
  | i, acc, step :: rest => classifyGo (i + 1) (classifyFold acc i step) rest

/-- The step classification performed per route at src/index.ts:296-312. -/
def classify (steps : List Step) : ClassifyResult :=
  classifyGo 0 ⟨none, none, -1⟩ steps

/-! ### Transaction orchestration (the per-route body of `main`,
src/index.ts:290-439)

`RouteEnv` is the oracle for the external Ledger Client: whether the
approval submission plus its confirmation wait succeeds, and whether the
transfer submission plus its confirmation wait succeeds.  `TxRequest`
records exactly the fields the source passes to `sendTransaction`.
`RunError` models an exception escaping the per-route code into `main`'s
outer catch (src/index.ts:442-452), which prints it and exits non-zero. -/

structure RouteEnv where
  approvalOk : Bool
  sendOk : Bool
deriving DecidableEq, Repr

inductive RouteOutcome where
  | skippedNoTransfer
  | routeFailed
  | confirmed
deriving DecidableEq, Repr

inductive RunError where
  | approvalError
  | decodeError
deriving DecidableEq, Repr

structure TxRequest where
  toAddr : String
  data : List Nat
  value : Option Nat
deriving DecidableEq, Repr

/-- The hardcoded refund-address override `customRefundAddress`
(src/index.ts:227). -/
def customRefundAddress : Nat := 0xdeadbeefdeadbeefdeadbeefdeadbeefdeadbeef

/-- The comparison logged at src/index.ts:384-390: only the refund field of
the re-decoded calldata is compared (case-insensitively, hence plain numeric
equality here) with the new refund address.  The result is printed, not
branched on. -/
def verificationMatch (verifyDecoded : TransferCall) (newRefundAddress : Nat) : Bool :=
  verifyDecoded.refundAddress == newRefundAddress

/-- The part of the route body after the approval handling
(src/index.ts:332-438): skip when no send step was classified, decode the
send step's calldata (a decode throw escapes the loop), re-encode with the
override, decode again for the logged verification, then submit the transfer
with the step's target, value and the new calldata inside the route-scoped
try/catch. -/
def processAfterApproval (ov : Nat) (env : RouteEnv) (c : ClassifyResult)
    (tr : List TxRequest) : List TxRequest × Except RunError RouteOutcome :=
  match c.sendStep with
  | none => (tr, .ok .skippedNoTransfer)
  | some st =>
    match decodeStargateCalldata (st.transaction.data.getD []) with
    | .error _ => (tr, .error .decodeError)
    | .ok dec =>
      match decodeStargateCalldata
          (encodeStargateCalldata dec.sendParam dec.fee ov) with
      | .error _ => (tr, .error .decodeError)
      | .ok verifyDecoded =>
        let _flag := verificationMatch verifyDecoded ov
        if env.sendOk then
          (tr ++ [⟨st.transaction.toAddr,
            encodeStargateCalldata dec.sendParam dec.fee ov,
            some st.transaction.value⟩], .ok .confirmed)
        else
          (tr ++ [⟨st.transaction.toAddr,
            encodeStargateCalldata dec.sendParam dec.fee ov,
            some st.transaction.value⟩], .ok .routeFailed)

/-- One route body (src/index.ts:290-439).  The approval, when classified,
is submitted and awaited first — before the send-step check — outside any
route-scoped try/catch: its request carries only the step's target and raw
calldata (src/index.ts:320-323), and a failure escapes to `main`'s outer
catch. -/
def processRoute (ov : Nat) (env : RouteEnv) (route : Route) :
    List TxRequest × Except RunError RouteOutcome :=
  let c := classify route.steps
  match c.approvalStep with
  | some st =>
    if env.approvalOk then
      processAfterApproval ov env c
        [⟨st.transaction.toAddr, st.transaction.data.getD [], none⟩]
    else
      ([⟨st.transaction.toAddr, st.transaction.data.getD [], none⟩],
        .error .approvalError)
  | none => processAfterApproval ov env c []

/-- The outer route loop (src/index.ts:290-439): routes in order; a
confirmed transfer breaks the loop; a route-scoped failure or a skip
continues with the next route; any other error escapes the loop entirely.
Returns the per-route results in attempt order and the concatenated trace of
Ledger Client requests. -/
def runRoutes (ov : Nat) :
    List (Route × RouteEnv) → List (Except RunError RouteOutcome) × List TxRequest
  | [] => ([], [])
  | (r, e) :: rest =>
    match processRoute ov e r with
    | (tr, .error err) => ([.error err], tr)
    | (tr, .ok .confirmed) => ([.ok .confirmed], tr)
    | (tr, .ok .skippedNoTransfer) =>
      (.ok .skippedNoTransfer :: (runRoutes ov rest).1, tr ++ (runRoutes ov rest).2)
    | (tr, .ok .routeFailed) =>
      (.ok .routeFailed :: (runRoutes ov rest).1, tr ++ (runRoutes ov rest).2)

/-! ### Behaviour of the route body -/

/-- The Ledger Client request generated by an approval step, when one was
classified (src/index.ts:320-323): only the step's target and raw calldata
are forwarded. -/
def approvalRequests (c : ClassifyResult) : List TxRequest :=
  match c.approvalStep with
  | none => []
  | some st => [⟨st.transaction.toAddr, st.transaction.data.getD [], none⟩]

theorem processRoute_unfold (ov : Nat) (env : RouteEnv) (r : Route) :
    processRoute ov env r =
      match (classify r.steps).approvalStep with
      | some st =>
        if env.approvalOk then
          processAfterApproval ov env (classify r.steps)
            [⟨st.transaction.toAddr, st.transaction.data.getD [], none⟩]
        else
          ([⟨st.transaction.toAddr, st.transaction.data.getD [], none⟩],
            .error .approvalError)
      | none => processAfterApproval ov env (classify r.steps) [] := rfl

theorem processAfterApproval_skip (ov : Nat) (env : RouteEnv) (c : ClassifyResult)
    (tr : List TxRequest) (h : c.sendStep = none) :
    processAfterApproval ov env c tr = (tr, .ok .skippedNoTransfer) := by
  unfold processAfterApproval
  rw [h]

theorem processAfterApproval_decodeError (ov : Nat) (env : RouteEnv)
    (c : ClassifyResult) (tr : List TxRequest) (st : Step) (err : DecodeError)
    (hst : c.sendStep = some st)
    (hdec : decodeStargateCalldata (st.transaction.data.getD []) = .error err) :
    processAfterApproval ov env c tr = (tr, .error .decodeError) := by
  unfold processAfterApproval
  simp only [hst, hdec]

theorem processAfterApproval_submit (ov : Nat) (env : RouteEnv)
    (c : ClassifyResult) (tr : List TxRequest) (st : Step) (tc : TransferCall)
    (hst : c.sendStep = some st)
    (hdec : decodeStargateCalldata (st.transaction.data.getD []) = .ok tc)
    (hverify : decodeStargateCalldata
        (encodeStargateCalldata tc.sendParam tc.fee ov) =
      .ok ⟨tc.sendParam, tc.fee, ov⟩) :
    processAfterApproval ov env c tr =
      (tr ++ [⟨st.transaction.toAddr,
          encodeStargateCalldata tc.sendParam tc.fee ov,
          some st.transaction.value⟩],
        .ok (if env.sendOk then .confirmed else .routeFailed)) := by
  unfold processAfterApproval
  simp only [hst, hdec, hverify]
  by_cases hs : env.sendOk = true <;> simp [hs]

/-- Full description of the route body on a route whose transfer step
decodes, with the approval (when present) succeeding. -/
theorem processRoute_eq (ov : Nat) (env : RouteEnv) (r : Route) (st : Step)
    (tc : TransferCall)
    (hst : (classify r.steps).sendStep = some st)
    (hdec : decodeStargateCalldata (st.transaction.data.getD []) = .ok tc)
    (hverify : decodeStargateCalldata
        (encodeStargateCalldata tc.sendParam tc.fee ov) =
      .ok ⟨tc.sendParam, tc.fee, ov⟩)
    (happ : (classify r.steps).approvalStep = none ∨ env.approvalOk = true) :
    processRoute ov env r =
      (approvalRequests (classify r.steps) ++
        [⟨st.transaction.toAddr, encodeStargateCalldata tc.sendParam tc.fee ov,
          some st.transaction.value⟩],
        .ok (if env.sendOk then .confirmed else .routeFailed)) := by
  cases hap : (classify r.steps).approvalStep with
  | none =>
    simp only [processRoute_unfold, hap, approvalRequests]
    rw [processAfterApproval_submit ov env _ [] st tc hst hdec hverify]
  | some ast =>
    have henv : env.approvalOk = true := by
      cases happ with
      | inl h => rw [h] at hap; exact Option.noConfusion hap
      | inr h => exact h
    simp only [processRoute_unfold, hap, henv, approvalRequests, if_true]
    rw [processAfterApproval_submit ov env _ _ st tc hst hdec hverify]

/-! ### Concrete fixtures for witnesses and counterexamples -/

def sampleParam : SendParam := ⟨30110, 0xabc, 1000000, 950000, [1, 2, 3], [], []⟩

def sampleFee : Fee := ⟨12345, 0⟩

def sampleRefund : Nat := 0x1111111111111111111111111111111111111111

def sampleCalldata : List Nat := encodeStargateCalldata sampleParam sampleFee sampleRefund

def transferStep : Step :=
  ⟨"bridge", "0xme", "base", ⟨some sampleCalldata, "0xpool", 777, "0xme"⟩⟩

def approveStep : Step :=
  ⟨"approve", "0xme", "base",
    ⟨some (approveSelector ++ List.replicate 64 0), "0xtoken", 5, "0xme"⟩⟩

def unrelatedStep : Step :=
  ⟨"wrap", "0xme", "base", ⟨some [1, 2, 3, 4, 5], "0xw", 0, "0xme"⟩⟩

def transferRoute : Route := ⟨"stargate/bus", [transferStep]⟩

def approvalTransferRoute : Route := ⟨"stargate/taxi", [approveStep, transferStep]⟩

def approvalOnlyRoute : Route := ⟨"stargate/bus", [approveStep]⟩

def unrelatedRoute : Route := ⟨"stargate/bus", [unrelatedStep]⟩

def badTransferStep : Step :=
  ⟨"bridge", "0xme", "base", ⟨some (sendSelector ++ [1, 2]), "0xpool", 9, "0xme"⟩⟩

def badTransferRoute : Route := ⟨"stargate/bus", [badTransferStep]⟩

/-! ### C2 -/

/-- C2: for every route that reaches submission, the calldata ultimately
submitted differs from the originally quoted transfer calldata only in the
refund-account-identifier field: the re-encoding step passes the decoded
TransferParameters and FeeQuote through unchanged and replaces only the
refund address with the configured override value.  Stated as: the last
Ledger Client request of the route body carries exactly the re-encoded
calldata, whose decoding is the original decoded triple with only the
refund address replaced by the override. -/
theorem submitted_differs_only_in_refund (ov : Nat) (env : RouteEnv) (r : Route)
    (st : Step) (tc : TransferCall)
    (hov : ov < 2 ^ 160)
    (hst : (classify r.steps).sendStep = some st)
    (hb : ∀ b ∈ st.transaction.data.getD [], b < 256)
    (hlen : (st.transaction.data.getD []).length < 2 ^ 64)
    (hdec : decodeStargateCalldata (st.transaction.data.getD []) = .ok tc)
    (happ : (classify r.steps).approvalStep = none ∨ env.approvalOk = true) :
    decodeStargateCalldata (encodeStargateCalldata tc.sendParam tc.fee ov) =
      .ok ⟨tc.sendParam, tc.fee, ov⟩ ∧
    (processRoute ov env r).1.getLast? =
      some ⟨st.transaction.toAddr, encodeStargateCalldata tc.sendParam tc.fee ov,
        some st.transaction.value⟩ := by
  have hverify := decode_then_reencode _ tc ov hb hlen hov hdec
  refine ⟨hverify, ?_⟩
  rw [processRoute_eq ov env r st tc hst hdec hverify happ]
  exact List.getLast?_concat _

/-- Witness for C2 on a concrete one-step route. -/
theorem submitted_differs_only_in_refund_witness :
    decodeStargateCalldata (transferStep.transaction.data.getD []) =
      .ok ⟨sampleParam, sampleFee, sampleRefund⟩ ∧
    decodeStargateCalldata
        (encodeStargateCalldata sampleParam sampleFee customRefundAddress) =
      .ok ⟨sampleParam, sampleFee, customRefundAddress⟩ ∧
    (processRoute customRefundAddress ⟨true, true⟩ transferRoute).1.getLast? =
      some ⟨transferStep.transaction.toAddr,
        encodeStargateCalldata sampleParam sampleFee customRefundAddress,
        some transferStep.transaction.value⟩ := by
  refine ⟨by decide, ?_⟩
  have h := submitted_differs_only_in_refund customRefundAddress ⟨true, true⟩
    transferRoute transferStep ⟨sampleParam, sampleFee, sampleRefund⟩
    (by decide) (by decide) (by decide) (by decide) (by decide)
    (Or.inl (by decide))
  exact h

/-! ### C6 -/

/-- Modelled from the spec: §4.3 step 5 and §8 claim the orchestrator
asserts, after re-encoding, that the refund field of the re-decoded call
equals the override AND that the structured parameter and fee fields equal
the pre-override values.  The source contains no such assertion; this
definition renders the claimed check so it can be compared with the code's
actual `verificationMatch`. -/
def specVerificationAssert (pre : TransferCall) (ov : Nat)
    (verifyDecoded : TransferCall) : Bool :=
  verifyDecoded.refundAddress == ov &&
    verifyDecoded.sendParam == pre.sendParam && verifyDecoded.fee == pre.fee

/-- Counterexample for C6: the verification computed by the code
(src/index.ts:384-390) reads only the refund field, so it accepts a decoded
value whose structured parameter and fee fields differ from the pre-override
values — the claimed assertion on those fields does not exist in the code
(and the comparison result is only logged, never branched on). -/
theorem verification_ignores_structured_fields :
    verificationMatch ⟨⟨99, 0, 0, 0, [], [], []⟩, ⟨0, 0⟩, customRefundAddress⟩
        customRefundAddress = true ∧
    specVerificationAssert ⟨sampleParam, sampleFee, sampleRefund⟩
        customRefundAddress
        ⟨⟨99, 0, 0, 0, [], [], []⟩, ⟨0, 0⟩, customRefundAddress⟩ = false := by
  decide

/-- C6 amended: after re-encoding, the orchestrator decodes the re-encoded
calldata and computes only whether its refund field equals the override,
logging the result without branching on it; the decoded value in fact always
equals the pre-override parameters and fees with the override as refund (so
the logged comparison always succeeds), and the route proceeds to the
transfer submission regardless — no abort path exists for this check. -/
theorem verification_logged_and_route_proceeds (ov : Nat) (env : RouteEnv)
    (r : Route) (st : Step) (tc : TransferCall)
    (hov : ov < 2 ^ 160)
    (hst : (classify r.steps).sendStep = some st)
    (hb : ∀ b ∈ st.transaction.data.getD [], b < 256)
    (hlen : (st.transaction.data.getD []).length < 2 ^ 64)
    (hdec : decodeStargateCalldata (st.transaction.data.getD []) = .ok tc)
    (happ : (classify r.steps).approvalStep = none ∨ env.approvalOk = true) :
    decodeStargateCalldata (encodeStargateCalldata tc.sendParam tc.fee ov) =
      .ok ⟨tc.sendParam, tc.fee, ov⟩ ∧
    verificationMatch ⟨tc.sendParam, tc.fee, ov⟩ ov = true ∧
    (processRoute ov env r).2 =
      .ok (if env.sendOk then .confirmed else .routeFailed) := by
  have hverify := decode_then_reencode _ tc ov hb hlen hov hdec
  refine ⟨hverify, by simp [verificationMatch], ?_⟩
  rw [processRoute_eq ov env r st tc hst hdec hverify happ]

/-- Witness for the amended C6 on a concrete one-step route with a failing
transfer submission: the verification is computed, and the route still
proceeds to submission (ending route-failed, not aborted). -/
theorem verification_logged_and_route_proceeds_witness :
    verificationMatch ⟨sampleParam, sampleFee, customRefundAddress⟩
      customRefundAddress = true ∧
    (processRoute customRefundAddress ⟨true, false⟩ transferRoute).2 =
      .ok .routeFailed := by
  have h := verification_logged_and_route_proceeds customRefundAddress
    ⟨true, false⟩ transferRoute transferStep
    ⟨sampleParam, sampleFee, sampleRefund⟩ (by decide) (by decide) (by decide)
    (by decide) (by decide) (Or.inl (by decide))
  exact ⟨h.2.1, h.2.2⟩

/-! ### C3 -/

/-- C3: routes are attempted strictly in the order supplied; on a
route-scoped transfer submission or confirmation failure the route is marked
failed and the loop continues with the next route, and after the first route
whose submission reaches a confirmed success the outer loop terminates
immediately, attempting no further routes even if more remain. -/
theorem routeLoop_order (ov : Nat) (r : Route) (e : RouteEnv)
    (rest : List (Route × RouteEnv)) :
    ((processRoute ov e r).2 = .ok .routeFailed →
      runRoutes ov ((r, e) :: rest) =
        (.ok .routeFailed :: (runRoutes ov rest).1,
          (processRoute ov e r).1 ++ (runRoutes ov rest).2)) ∧
    ((processRoute ov e r).2 = .ok .confirmed →
      runRoutes ov ((r, e) :: rest) =
        ([.ok .confirmed], (processRoute ov e r).1)) := by
  constructor
  · intro h
    rcases hpr : processRoute ov e r with ⟨tr, res⟩
    rw [hpr] at h
    simp only at h
    subst h
    simp only [runRoutes, hpr]
  · intro h
    rcases hpr : processRoute ov e r with ⟨tr, res⟩
    rw [hpr] at h
    simp only at h
    subst h
    simp only [runRoutes, hpr]

/-- Witness for C3: a failing submission continues to the next route; a
succeeding one stops the loop with no further route attempted. -/
theorem routeLoop_order_witness :
    (processRoute customRefundAddress ⟨true, false⟩ transferRoute).2 =
      .ok .routeFailed ∧
    runRoutes customRefundAddress
        [(transferRoute, ⟨true, false⟩), (unrelatedRoute, ⟨true, true⟩)] =
      (.ok .routeFailed ::
          (runRoutes customRefundAddress [(unrelatedRoute, ⟨true, true⟩)]).1,
        (processRoute customRefundAddress ⟨true, false⟩ transferRoute).1 ++
          (runRoutes customRefundAddress [(unrelatedRoute, ⟨true, true⟩)]).2) ∧
    (processRoute customRefundAddress ⟨true, true⟩ transferRoute).2 =
      .ok .confirmed ∧
    runRoutes customRefundAddress
        [(transferRoute, ⟨true, true⟩), (unrelatedRoute, ⟨true, true⟩)] =
      ([.ok .confirmed],
        (processRoute customRefundAddress ⟨true, true⟩ transferRoute).1) :=
  ⟨by decide,
    (routeLoop_order customRefundAddress transferRoute ⟨true, false⟩
      [(unrelatedRoute, ⟨true, true⟩)]).1 (by decide),
    by decide,
    (routeLoop_order customRefundAddress transferRoute ⟨true, true⟩
      [(unrelatedRoute, ⟨true, true⟩)]).2 (by decide)⟩

/-! ### C5 -/

/-- Counterexample for C5: with two routes where the first route's approval
submission fails, the whole run aborts with the approval error after a
single route attempt — the second route is never attempted, so the approval
error is not route-scoped and is fatal to the run. -/
theorem approvalFailure_fatal_example :
    runRoutes customRefundAddress
        [(approvalTransferRoute, ⟨false, true⟩), (transferRoute, ⟨true, true⟩)] =
      ([.error .approvalError],
        [⟨"0xtoken", approveSelector ++ List.replicate 64 0, none⟩]) ∧
    (runRoutes customRefundAddress
        [(approvalTransferRoute, ⟨false, true⟩),
          (transferRoute, ⟨true, true⟩)]).1.length = 1 ∧
    Except.ok RouteOutcome.routeFailed ∉
      (runRoutes customRefundAddress
        [(approvalTransferRoute, ⟨false, true⟩),
          (transferRoute, ⟨true, true⟩)]).1 := by
  decide

/-- C5 amended: an error raised while submitting or awaiting confirmation of
the approval step is NOT caught by any route-scoped handler: it escapes the
route loop and is fatal to the entire run; the route is not marked failed
and no further route is attempted. -/
theorem approvalFailure_aborts_run (ov : Nat) (env : RouteEnv) (r : Route)
    (st : Step) (rest : List (Route × RouteEnv))
    (hap : (classify r.steps).approvalStep = some st)
    (hfail : env.approvalOk = false) :
    runRoutes ov ((r, env) :: rest) =
      ([.error .approvalError],
        [⟨st.transaction.toAddr, st.transaction.data.getD [], none⟩]) := by
  have hpr : processRoute ov env r =
      ([⟨st.transaction.toAddr, st.transaction.data.getD [], none⟩],
        .error .approvalError) := by
    simp [processRoute_unfold, hap, hfail]
  simp only [runRoutes, hpr]

/-- Witness for the amended C5. -/
theorem approvalFailure_aborts_run_witness :
    (classify approvalOnlyRoute.steps).approvalStep = some approveStep ∧
    runRoutes customRefundAddress [(approvalOnlyRoute, ⟨false, true⟩)] =
      ([.error .approvalError],
        [⟨approveStep.transaction.toAddr,
          approveStep.transaction.data.getD [], none⟩]) :=
  ⟨by decide,
    approvalFailure_aborts_run customRefundAddress ⟨false, true⟩
      approvalOnlyRoute approveStep [] (by decide) (by decide)⟩

/-! ### C7 -/

/-- Counterexample for C7: a route with an approval step but no transfer
step still submits the approval transaction — the approval handling runs
before the transfer-step check, so the Ledger Client is invoked on a route
that then terminates in SkippedNoTransfer. -/
theorem approvalOnlyRoute_submits_example :
    processRoute customRefundAddress ⟨true, true⟩ approvalOnlyRoute =
      ([⟨"0xtoken", approveSelector ++ List.replicate 64 0, none⟩],
        .ok .skippedNoTransfer) ∧
    (processRoute customRefundAddress ⟨true, true⟩ approvalOnlyRoute).1 ≠ [] := by
  decide

/-- C7 amended: a route with no transfer step terminates in
SkippedNoTransfer and the loop proceeds to the next route; however the
approval step, when present, has already been submitted and confirmed before
the check, so only routes with neither step submit nothing. -/
theorem skippedNoTransfer_behavior (ov : Nat) (env : RouteEnv) (r : Route)
    (hno : (classify r.steps).sendStep = none) (hok : env.approvalOk = true) :
    (processRoute ov env r).2 = .ok .skippedNoTransfer ∧
    ((classify r.steps).approvalStep = none → (processRoute ov env r).1 = []) ∧
    (∀ st, (classify r.steps).approvalStep = some st →
      (processRoute ov env r).1 =
        [⟨st.transaction.toAddr, st.transaction.data.getD [], none⟩]) ∧
    (∀ rest, (runRoutes ov ((r, env) :: rest)).1 =
      .ok .skippedNoTransfer :: (runRoutes ov rest).1) := by
  cases hap : (classify r.steps).approvalStep with
  | none =>
    have hpr : processRoute ov env r = ([], .ok .skippedNoTransfer) := by
      simp only [processRoute_unfold, hap]
      exact processAfterApproval_skip ov env _ [] hno
    refine ⟨by rw [hpr], fun _ => by rw [hpr], fun st hst => ?_, fun rest => ?_⟩
    · exact Option.noConfusion hst
    · simp only [runRoutes, hpr]
  | some ast =>
    have hpr : processRoute ov env r =
        ([⟨ast.transaction.toAddr, ast.transaction.data.getD [], none⟩],
          .ok .skippedNoTransfer) := by
      simp only [processRoute_unfold, hap, hok, if_true]
      exact processAfterApproval_skip ov env _ _ hno
    refine ⟨by rw [hpr], fun hst => ?_, fun st hst => ?_, fun rest => ?_⟩
    · exact Option.noConfusion hst
    · cases hst
      rw [hpr]
    · simp only [runRoutes, hpr]

/-- Witness for the amended C7 on a route whose only step is unrelated. -/
theorem skippedNoTransfer_behavior_witness :
    (classify unrelatedRoute.steps).sendStep = none ∧
    (processRoute customRefundAddress ⟨true, true⟩ unrelatedRoute).2 =
      .ok .skippedNoTransfer ∧
    (processRoute customRefundAddress ⟨true, true⟩ unrelatedRoute).1 = [] :=
  ⟨by decide,
    (skippedNoTransfer_behavior customRefundAddress ⟨true, true⟩ unrelatedRoute
      (by decide) (by decide)).1,
    (skippedNoTransfer_behavior customRefundAddress ⟨true, true⟩ unrelatedRoute
      (by decide) (by decide)).2.1 (by decide)⟩

/-! ### C8 -/

/-- C8: a failure to decode the transfer step's raw calldata is fatal for
the whole run: the error escapes the per-route loop (there is no
route-scoped handler for it) and the run terminates with the decode error as
its sole outcome — no later route is attempted, in asymmetry with
submission and confirmation failures, which only fail the current route. -/
theorem decodeFailure_fatal (ov : Nat) (env : RouteEnv) (r : Route) (st : Step)
    (rest : List (Route × RouteEnv)) (err : DecodeError)
    (hst : (classify r.steps).sendStep = some st)
    (hdec : decodeStargateCalldata (st.transaction.data.getD []) = .error err)
    (happ : (classify r.steps).approvalStep = none ∨ env.approvalOk = true) :
    runRoutes ov ((r, env) :: rest) =
      ([.error .decodeError], (processRoute ov env r).1) := by
  have hpr2 : (processRoute ov env r).2 = .error .decodeError := by
    cases hap : (classify r.steps).approvalStep with
    | none =>
      simp only [processRoute_unfold, hap]
      rw [processAfterApproval_decodeError ov env _ [] st err hst hdec]
    | some ast =>
      have henv : env.approvalOk = true := by
        cases happ with
        | inl h => rw [h] at hap; exact Option.noConfusion hap
        | inr h => exact h
      simp only [processRoute_unfold, hap, henv, if_true]
      rw [processAfterApproval_decodeError ov env _ _ st err hst hdec]
  rcases hpr : processRoute ov env r with ⟨tr, res⟩
  rw [hpr] at hpr2
  simp only at hpr2
  subst hpr2
  simp only [runRoutes, hpr]

/-- Witness for C8: a route whose transfer-selector calldata is truncated
aborts the run; a following route is never attempted. -/
theorem decodeFailure_fatal_witness :
    (classify badTransferRoute.steps).sendStep = some badTransferStep ∧
    decodeStargateCalldata (badTransferStep.transaction.data.getD []) =
      .error .malformed ∧
    runRoutes customRefundAddress
        [(badTransferRoute, ⟨true, true⟩), (transferRoute, ⟨true, true⟩)] =
      ([.error .decodeError],
        (processRoute customRefundAddress ⟨true, true⟩ badTransferRoute).1) :=
  ⟨by decide, by decide,
    decodeFailure_fatal customRefundAddress ⟨true, true⟩ badTransferRoute
      badTransferStep [(transferRoute, ⟨true, true⟩)] .malformed (by decide)
      (by decide) (Or.inl (by decide))⟩

/-! ### C4 -/

def stepC : Step :=
  ⟨"bridge", "0xme", "base", ⟨some (sendSelector ++ [0]), "0xC", 0, "0xme"⟩⟩

def stepD : Step :=
  ⟨"bridge", "0xme", "base", ⟨some (sendSelector ++ [1]), "0xD", 0, "0xme"⟩⟩

/-- Counterexample for C4: on the spec's own example
`[A(approve), B(unrelated), C(transfer), D(transfer)]` the classifier
returns transfer = (D, index 3), not (C, index 2): each selector match
overwrites the previous one, so the LAST matching step wins, not the
first. -/
theorem classify_firstMatch_false :
    classify [approveStep, unrelatedStep, stepC, stepD] =
      ⟨some approveStep, some stepD, 3⟩ ∧
    stepD ≠ stepC ∧
    (classify [approveStep, unrelatedStep, stepC, stepD]).sendStepIndex ≠ 2 := by
  decide

theorem classifyGo_append (l : List Step) (s : Step) (i : Nat)
    (acc : ClassifyResult) :
    classifyGo i acc (l ++ [s]) =
      classifyFold (classifyGo i acc l) (i + l.length) s := by
  induction l generalizing i acc with
  | nil => simp [classifyGo]
  | cons hd tl ih =>
    simp only [List.cons_append, classifyGo, List.append_eq]
    rw [ih]
    congr 1
    simp only [List.length_cons]
    omega

theorem classify_append (l : List Step) (s : Step) :
    classify (l ++ [s]) = classifyFold (classify l) l.length s := by
  unfold classify
  rw [classifyGo_append]
  congr 1
  omega

/-- C4 amended: classification is last-match for both kinds — appending an
approval-shaped step makes it the recorded approval candidate, and appending
a transfer-shaped step makes it the recorded transfer step with its index;
earlier matching steps are overwritten.  In particular, for steps
`[A(approve), B(unrelated), C(transfer), D(transfer)]` the classifier
returns approval = A and transfer = (D, index 3). -/
theorem classify_lastMatch (l : List Step) (s : Step) (d : List Nat)
    (hd : s.transaction.data = some d) :
    (d.take 4 = sendSelector →
      (classify (l ++ [s])).sendStep = some s ∧
      (classify (l ++ [s])).sendStepIndex = (l.length : Int)) ∧
    (d.take 4 = approveSelector →
      (classify (l ++ [s])).approvalStep = some s) := by
  rw [classify_append]
  constructor
  · intro hsel
    have hne : ¬(d.take 4 = approveSelector) := by
      rw [hsel]
      decide
    simp only [classifyFold, hd]
    rw [if_neg hne, if_pos hsel]
    exact ⟨rfl, rfl⟩
  · intro hsel
    simp only [classifyFold, hd]
    rw [if_pos hsel]

/-- Witness for the amended C4 on the spec's example list. -/
theorem classify_lastMatch_witness :
    stepD.transaction.data = some (sendSelector ++ [1]) ∧
    (classify ([approveStep, unrelatedStep, stepC] ++ [stepD])).sendStep =
      some stepD ∧
    (classify ([approveStep, unrelatedStep, stepC] ++ [stepD])).sendStepIndex =
      (3 : Int) :=
  ⟨by decide,
    ((classify_lastMatch [approveStep, unrelatedStep, stepC] stepD
      (sendSelector ++ [1]) (by decide)).1 (by decide)).1,
    ((classify_lastMatch [approveStep, unrelatedStep, stepC] stepD
      (sendSelector ++ [1]) (by decide)).1 (by decide)).2⟩

/-! ### C10 -/

theorem processAfterApproval_trace_head (ov : Nat) (env : RouteEnv)
    (c : ClassifyResult) (req : TxRequest) :
    ((processAfterApproval ov env c [req]).1).head? = some req := by
  unfold processAfterApproval
  rcases hc : c.sendStep with _ | st
  · simp
  · rcases hdec : decodeStargateCalldata (st.transaction.data.getD []) with e | dec
    · simp [hdec]
    · rcases hv : decodeStargateCalldata
          (encodeStargateCalldata dec.sendParam dec.fee ov) with e | vd
      · simp [hdec, hv]
      · by_cases hs : env.sendOk = true <;> simp [hdec, hv, hs]

/-- C10: when an approval step is present, the approval transaction is
submitted with only the step's target address and raw calldata: the request
carries no value (`none`, unlike the transfer submission, whose request
carries `some` of the skeleton's value) and no originating address — the
skeleton's `value` and `from` fields are not forwarded, whatever they
contain. -/
theorem approval_submits_to_and_data_only (ov : Nat) (env : RouteEnv)
    (r : Route) (st : Step)
    (hap : (classify r.steps).approvalStep = some st) :
    (processRoute ov env r).1.head? =
      some ⟨st.transaction.toAddr, st.transaction.data.getD [], none⟩ := by
  simp only [processRoute_unfold, hap]
  by_cases henv : env.approvalOk = true
  · rw [if_pos henv]
    exact processAfterApproval_trace_head ov env _ _
  · rw [if_neg henv]
    rfl

/-- Witness for C10: the approval step's skeleton carries a non-zero value
(5), yet the request submitted for it has `value := none`. -/
theorem approval_submits_to_and_data_only_witness :
    (classify approvalTransferRoute.steps).approvalStep = some approveStep ∧
    approveStep.transaction.value = 5 ∧
    (processRoute customRefundAddress ⟨true, true⟩ approvalTransferRoute).1.head? =
      some ⟨approveStep.transaction.toAddr,
        approveStep.transaction.data.getD [], none⟩ :=
  ⟨by decide, by decide,
    approval_submits_to_and_data_only customRefundAddress ⟨true, true⟩
      approvalTransferRoute approveStep (by decide)⟩

end StargateDemo
